import Mathlib

/-!
Verification development for the visvaultker repository (Express/WebSocket
browser-automation server).

The definitions below are shallow embeddings, translated from the TypeScript
sources:

* `src/server/CustomLLMClient.ts` — the structured-response parsing and
  normalization pipeline (`_normalizeActionObject`, the safe-default action,
  `_buildLLMResponseFromRaw`) and the bounded retry loop of
  `createChatCompletion` with OAuth token refresh on 401.
* `src/server/automation.ts` — the `execute` control flow of
  `AutomationExecutor`: URL extraction, the keyword-based multi-step prompt
  splitter `parseMultiStepPrompt` (a faithful rendition of the JS regexes,
  including `lastIndex` bookkeeping of `RegExp.exec`), and `cleanup`.
* `src/server/routes.ts` — the `execute_automation` WebSocket message handler,
  the socket-close handler, the zod payload validation, and
  `MemStorage.deleteAutomation` with its DELETE route.

JavaScript values flowing through `JSON.parse` are modelled by the inductive
`Jx`; JSON numbers keep their source lexeme (the claims never depend on float
formatting).  Wall-clock effects (timestamps, backoff sleeps) are either
elided or passed in as explicit parameters; network and subprocess effects
are supplied as outcome oracles.  A JS function that can throw is embedded
with an `Except` result type; a JS function that never throws is embedded as
a total Lean function.
-/

/-- A JavaScript value produced by `JSON.parse`.  Numbers keep their raw
lexeme from the source text. -/
inductive Jx where
  | jnull
  | jbool (b : Bool)
  | jnum (lex : String)
  | jstr (s : String)
  | jarr (elems : List Jx)
  | jobj (fields : List (String × Jx))
deriving Repr, Inhabited

/-- JSON insignificant whitespace (RFC 8259 / `JSON.parse`). -/
def jsonWsChar (c : Char) : Bool := c = ' ' || c = '\t' || c = '\n' || c = '\r'

/-- Drop leading JSON whitespace. -/
def skipJsonWs (s : List Char) : List Char := s.dropWhile jsonWsChar

/-- ASCII decimal digit test. -/
def isDigitC (c : Char) : Bool := '0' ≤ c && c ≤ '9'

/-- Split a leading run of digits. -/
def spanDigits (s : List Char) : List Char × List Char :=
  (s.takeWhile isDigitC, s.dropWhile isDigitC)

/-- Optional fraction part `(\.[0-9]+)?` of a JSON number. -/
def parseFracPart (s : List Char) : Option (List Char × List Char) :=
  match s with
  | '.' :: r =>
    let p := spanDigits r
    if p.1.isEmpty then none else some ('.' :: p.1, p.2)
  | _ => some ([], s)

/-- Optional exponent part `([eE][+-]?[0-9]+)?` of a JSON number. -/
def parseExpPart (s : List Char) : Option (List Char × List Char) :=
  match s with
  | c :: r =>
    if c = 'e' || c = 'E' then
      let p := match r with
        | '+' :: rr => (['+'], rr)
        | '-' :: rr => (['-'], rr)
        | _ => (([] : List Char), r)
      let d := spanDigits p.2
      if d.1.isEmpty then none else some (c :: (p.1 ++ d.1), d.2)
    else some ([], s)
  | [] => some ([], [])

/-- JSON number lexeme `-?(0|[1-9][0-9]*)(\.[0-9]+)?([eE][+-]?[0-9]+)?`.
Returns the lexeme characters and the remaining input. -/
def parseNumLex (s : List Char) : Option (List Char × List Char) :=
  let p := match s with
    | '-' :: r => ((['-'] : List Char), r)
    | _ => (([] : List Char), s)
  match p.2 with
  | '0' :: r =>
    match parseFracPart r with
    | some (fr, r2) =>
      match parseExpPart r2 with
      | some (ex, r3) => some (p.1 ++ '0' :: (fr ++ ex), r3)
      | none => none
    | none => none
  | c :: r =>
    if isDigitC c then
      let d := spanDigits r
      match parseFracPart d.2 with
      | some (fr, r2) =>
        match parseExpPart r2 with
        | some (ex, r3) => some (p.1 ++ c :: (d.1 ++ fr ++ ex), r3)
        | none => none
      | none => none
    else none
  | [] => none

/-- Value of a hexadecimal digit. -/
def hexDigitVal (c : Char) : Option Nat :=
  if '0' ≤ c && c ≤ '9' then some (c.toNat - 48)
  else if 'a' ≤ c && c ≤ 'f' then some (c.toNat - 87)
  else if 'A' ≤ c && c ≤ 'F' then some (c.toNat - 55)
  else none

/-- Body of a JSON string after the opening quote: handles the escape set of
`JSON.parse` and rejects raw control characters. -/
def parseStrBody (fuel : Nat) (s : List Char) (acc : List Char) :
    Option (String × List Char) :=
  match fuel, s with
  | 0, _ => none
  | _, [] => none
  | f + 1, c :: r =>
    if c = '"' then some (String.mk acc.reverse, r)
    else if c = '\\' then
      match r with
      | e :: r2 =>
        if e = '"' then parseStrBody f r2 ('"' :: acc)
        else if e = '\\' then parseStrBody f r2 ('\\' :: acc)
        else if e = '/' then parseStrBody f r2 ('/' :: acc)
        else if e = 'b' then parseStrBody f r2 (Char.ofNat 8 :: acc)
        else if e = 'f' then parseStrBody f r2 (Char.ofNat 12 :: acc)
        else if e = 'n' then parseStrBody f r2 ('\n' :: acc)
        else if e = 'r' then parseStrBody f r2 (Char.ofNat 13 :: acc)
        else if e = 't' then parseStrBody f r2 ('\t' :: acc)
        else if e = 'u' then
          match r2 with
          | h1 :: h2 :: h3 :: h4 :: r3 =>
            match hexDigitVal h1, hexDigitVal h2, hexDigitVal h3, hexDigitVal h4 with
            | some a, some b, some c2, some d =>
              parseStrBody f r3 (Char.ofNat (a * 4096 + b * 256 + c2 * 16 + d) :: acc)
            | _, _, _, _ => none
          | _ => none
        else none
      | [] => none
    else if c.toNat < 32 then none
    else parseStrBody f r (c :: acc)

/-- The `{` character (kept out of literals). -/
def lbraceC : Char := Char.ofNat 123

/-- The `}` character (kept out of literals). -/
def rbraceC : Char := Char.ofNat 125

mutual

/-- One JSON value (after optional leading whitespace), as accepted by
`JSON.parse`. -/
def parseJVal (fuel : Nat) (s : List Char) : Option (Jx × List Char) :=
  match fuel with
  | 0 => none
  | f + 1 =>
    match skipJsonWs s with
    | [] => none
    | c :: r =>
      if c = lbraceC then parseJObj f r [] true
      else if c = '[' then parseJArr f r [] true
      else if c = '"' then
        match parseStrBody (r.length + 1) r [] with
        | some (str, rest) => some (Jx.jstr str, rest)
        | none => none
      else if c = 't' then
        match r with
        | 'r' :: 'u' :: 'e' :: rest => some (Jx.jbool true, rest)
        | _ => none
      else if c = 'f' then
        match r with
        | 'a' :: 'l' :: 's' :: 'e' :: rest => some (Jx.jbool false, rest)
        | _ => none
      else if c = 'n' then
        match r with
        | 'u' :: 'l' :: 'l' :: rest => some (Jx.jnull, rest)
        | _ => none
      else
        match parseNumLex (c :: r) with
        | some (lex, rest) => some (Jx.jnum (String.mk lex), rest)
        | none => none

/-- Array elements after `[` (with `expectFirst` before any element). -/
def parseJArr (fuel : Nat) (s : List Char) (acc : List Jx) (expectFirst : Bool) :
    Option (Jx × List Char) :=
  match fuel with
  | 0 => none
  | f + 1 =>
    let s1 := skipJsonWs s
    match s1 with
    | [] => none
    | c :: r =>
      if expectFirst && c = ']' then some (Jx.jarr [], r)
      else
        match parseJVal f s1 with
        | some (v, rest) =>
          match skipJsonWs rest with
          | ',' :: r2 => parseJArr f r2 (v :: acc) false
          | c2 :: r2 =>
            if c2 = ']' then some (Jx.jarr (v :: acc).reverse, r2) else none
          | [] => none
        | none => none

/-- Object members after `{` (with `expectFirst` before any member). -/
def parseJObj (fuel : Nat) (s : List Char) (acc : List (String × Jx))
    (expectFirst : Bool) : Option (Jx × List Char) :=
  match fuel with
  | 0 => none
  | f + 1 =>
    let s1 := skipJsonWs s
    match s1 with
    | [] => none
    | c :: r =>
      if expectFirst && c = rbraceC then some (Jx.jobj [], r)
      else if c = '"' then
        match parseStrBody (r.length + 1) r [] with
        | some (k, r2) =>
          match skipJsonWs r2 with
          | ':' :: r3 =>
            match parseJVal f r3 with
            | some (v, r4) =>
              match skipJsonWs r4 with
              | ',' :: r5 => parseJObj f r5 ((k, v) :: acc) false
              | c2 :: r5 =>
                if c2 = rbraceC then some (Jx.jobj ((k, v) :: acc).reverse, r5)
                else none
              | [] => none
            | none => none
          | _ => none
        | none => none
      else none

end

/-- `JSON.parse`: one value, then only whitespace may remain. -/
def jsonParse (s : String) : Option Jx :=
  match parseJVal (2 * s.length + 8) s.data with
  | some (v, rest) => if (skipJsonWs rest).isEmpty then some v else none
  | none => none

/-- `safeJSONParse` from `CustomLLMClient.ts`: `JSON.parse` with the exception
swallowed (`none` models the `null`-on-failure result). -/
def safeJSONParse (s : String) : Option Jx := jsonParse s

/-- Last binding of a key (`JSON.parse` keeps the last duplicate). -/
def lookupLast : List (String × Jx) → String → Option Jx
  | [], _ => none
  | (k0, v0) :: rest, k =>
    match lookupLast rest k with
    | some r => some r
    | none => if k0 = k then some v0 else none

/-- JS property read `v[k]`: defined on objects, `undefined` (= `none`)
elsewhere. -/
def jget (v : Jx) (k : String) : Option Jx :=
  match v with
  | Jx.jobj fs => lookupLast fs k
  | _ => none

/-- JS optional chaining `o?.k`: `undefined` on `null`/`undefined`/non-object
receivers. -/
def jchain (o : Option Jx) (k : String) : Option Jx :=
  match o with
  | some Jx.jnull => none
  | some v => jget v k
  | none => none

/-- JS nullish coalescing `a ?? b` (skips only `null`/`undefined`). -/
def jalt (a b : Option Jx) : Option Jx :=
  match a with
  | some Jx.jnull => b
  | none => b
  | some v => some v

/-- `o ?? d` materialised to a value. -/
def jgetOr (o : Option Jx) (d : Jx) : Jx :=
  match jalt o none with
  | some v => v
  | none => d

/-- Zero test on a JSON number lexeme: zero iff the mantissa has no nonzero
digit (the exponent cannot make a nonzero mantissa zero). -/
def numIsZero (lex : String) : Bool :=
  (lex.data.takeWhile (fun c => c ≠ 'e' && c ≠ 'E')).all
    (fun c => !('1' ≤ c && c ≤ '9'))

/-- JS truthiness of a parsed JSON value. -/
def jsTruthy : Jx → Bool
  | Jx.jnull => false
  | Jx.jbool b => b
  | Jx.jnum lex => !numIsZero lex
  | Jx.jstr s => s ≠ ""
  | Jx.jarr _ => true
  | Jx.jobj _ => true

/-- Comma-join, as `Array.prototype.toString`. -/
def joinComma : List String → String
  | [] => ""
  | [s] => s
  | s :: rest => s ++ "," ++ joinComma rest

mutual

/-- JS `String(v)` for parsed JSON values.  Arrays stringify as the
comma-join of their elements (`Array.prototype.toString`); objects as
`[object Object]`. -/
def jsToString : Jx → String
  | Jx.jnull => "null"
  | Jx.jbool b => if b then "true" else "false"
  | Jx.jnum lex => lex
  | Jx.jstr s => s
  | Jx.jobj _ => "[object Object]"
  | Jx.jarr xs => jsArrJoin xs

/-- Comma-join of array elements, as `Array.prototype.join`. -/
def jsArrJoin : List Jx → String
  | [] => ""
  | [x] => jsElemStr x
  | x :: y :: rest => jsElemStr x ++ "," ++ jsArrJoin (y :: rest)

/-- One array element inside a join: `null` renders empty. -/
def jsElemStr : Jx → String
  | Jx.jnull => ""
  | v => jsToString v

end

/-! ### CustomLLMClient: response normalization (`src/server/CustomLLMClient.ts`)

`createChatCompletion` (lines 82-297) handles a 2xx response body `data` whose
message content is `messageContent`.  When the caller requested a structured
response (`response_model`/`responseSchema` present) the body of the success
branch (lines 213-246) is embedded below as `handleStructuredResponse`; the
helpers `_normalizeActionObject` (lines 303-337) and
`_buildLLMResponseFromRaw` (lines 342-362) are embedded one-to-one.  The
wall-clock reads (`Date.now()`) are passed in as the `now` parameter, and the
configured `actualModelName` as `modelName`.  `messageContent` is modelled in
its string case (the vendor contract); the whole pipeline is a total
function, which is exactly the "never throws, returns a safe default"
behaviour of the source. -/

/-- The canonical LLMResponse assembled by `_buildLLMResponseFromRaw`.  The
fixed parts of the shape (`choices[0].index = 0`, `role = "assistant"`) are
elided; `respObject` models the `object` field. -/
structure LLMResp where
  respId : Jx
  respObject : Jx
  created : Jx
  model : String
  content : Jx
  finishReason : Jx
  usage : Jx
deriving Repr

/-- `_buildLLMResponseFromRaw(raw, messageContent)`. -/
def buildLLMResponseFromRaw (raw : Jx) (messageContent : String) (now : Nat)
    (modelName : String) : LLMResp :=
  let rawChoice : Option Jx :=
    match jget raw "choices" with
    | some (Jx.jarr (c :: _)) => some c
    | _ => none
  let extractedContent : Jx :=
    match jalt (jchain (jchain rawChoice "message") "content")
        (jalt (jchain rawChoice "text") (jchain (some raw) "content")) with
    | some v => v
    | none => Jx.jstr messageContent
  { respId := jgetOr (jchain (some raw) "id") (Jx.jstr ("custom-" ++ toString now))
    respObject := jgetOr (jchain (some raw) "object") (Jx.jstr "chat.completion")
    created := jgetOr (jchain (some raw) "created") (Jx.jnum (toString (now / 1000)))
    model := modelName
    content := extractedContent
    finishReason := jgetOr (jchain rawChoice "finish_reason") (Jx.jstr "stop")
    usage := jgetOr (jchain (some raw) "usage")
      (Jx.jobj [("prompt_tokens", Jx.jnum "0"), ("completion_tokens", Jx.jnum "0"),
                ("total_tokens", Jx.jnum "0")]) }

/-- The normalized action shape returned to Stagehand.  `method := none`
models `method: null`; `parsedSrc` models the `_parsed` field (absent in the
safe-default payload); `rawResponse` models `_rawResponse`. -/
structure ActionPayload where
  elementId : String
  method : Option Jx
  arguments : List Jx
  description : Jx
  parsedSrc : Option Jx
  rawResponse : LLMResp
deriving Repr

/-- Characters removed from a candidate element id by
`elementId.replace(/[\[\]\s'"]/g, "")`: brackets, quotes and the JS `\s`
class (ASCII part). -/
def idStripChar (c : Char) : Bool :=
  c = '[' || c = ']' || c.toNat = 39 || c.toNat = 34 ||
  c = ' ' || c.toNat = 9 || c.toNat = 10 || c.toNat = 11 || c.toNat = 12 || c.toNat = 13

/-- Apply the id-cleaning replace. -/
def cleanIdStr (s : String) : String :=
  String.mk (s.data.filter (fun c => !idStripChar c))

/-- `rawId` extraction of `_normalizeActionObject` (lines 305-313): the
nullish-coalescing chain over `elementId`, `element?.id`,
`element?.elementId`, `target?.id`, `id`, then the falsy-guarded fallback to
`ids[0]`. -/
def rawIdOf (parsed : Jx) : Option Jx :=
  let rawId0 : Option Jx :=
    jalt (jget parsed "elementId")
      (jalt (jchain (jget parsed "element") "id")
        (jalt (jchain (jget parsed "element") "elementId")
          (jalt (jchain (jget parsed "target") "id")
            (jalt (jget parsed "id") none))))
  let falsy0 : Bool :=
    match rawId0 with
    | none => true
    | some v => !jsTruthy v
  if falsy0 then
    match jget parsed "ids" with
    | some (Jx.jarr (x :: _)) => some x
    | _ => rawId0
  else rawId0

/-- `String(rawId[0])` when `rawId` is an array (with `String(undefined)` for
the empty array), else `String(rawId)`. -/
def stringifyId : Jx → String
  | Jx.jarr (x :: _) => jsToString x
  | Jx.jarr [] => "undefined"
  | v => jsToString v

/-- The `elementId` computation of `_normalizeActionObject` (lines 315-320):
default `"0-1"`, cleaned stringification when `rawId != null`, restored to
`"0-1"` when cleaning leaves the empty string. -/
def elementIdOf (rawId : Option Jx) : String :=
  match rawId with
  | none => "0-1"
  | some Jx.jnull => "0-1"
  | some v =>
    let cleaned := cleanIdStr (stringifyId v)
    if cleaned = "" then "0-1" else cleaned

/-- `parsed.method ?? parsed.action ?? parsed.verb ?? null` (line 322). -/
def methodOf (parsed : Jx) : Option Jx :=
  jalt (jget parsed "method") (jalt (jget parsed "action") (jget parsed "verb"))

/-- The `arguments` computation (lines 323-330): prefer `parsed.arguments`,
else wrap a truthy `parsed.argument`, else `[]`; non-array results are
wrapped as `[args].filter(Boolean)`. -/
def argumentsOf (parsed : Jx) : List Jx :=
  let args0 : Jx :=
    match jalt (jget parsed "arguments") none with
    | some v => v
    | none =>
      match jget parsed "argument" with
      | some a =>
        if jsTruthy a then
          match a with
          | Jx.jarr xs => Jx.jarr xs
          | _ => Jx.jarr [a]
        else Jx.jarr []
      | none => Jx.jarr []
  match args0 with
  | Jx.jarr xs => xs
  | v => if jsTruthy v then [v] else []

/-- `CustomLLMClient._normalizeActionObject(parsed, rawData)`. -/
def normalizeActionObject (parsed : Jx) (rawData : Jx) (now : Nat)
    (modelName : String) : ActionPayload :=
  { elementId := elementIdOf (rawIdOf parsed)
    method := methodOf parsed
    arguments := argumentsOf parsed
    description := jgetOr (jget parsed "description") (Jx.jstr "")
    parsedSrc := some parsed
    rawResponse := buildLLMResponseFromRaw rawData
      (match rawData with | Jx.jstr s => s | _ => "") now modelName }

/-- The safe-default action returned when no JSON object can be recovered
from the content (lines 239-245): `elementId: "0-1"`, `method: null`, empty
arguments, empty description, raw response attached. -/
def defaultActionPayload (data : Jx) (messageContent : String) (now : Nat)
    (modelName : String) : ActionPayload :=
  { elementId := "0-1"
    method := none
    arguments := []
    description := Jx.jstr ""
    parsedSrc := none
    rawResponse := buildLLMResponseFromRaw data messageContent now modelName }

/-- Is the character an opening bracket of the extraction regex class? -/
def isOpenB (c : Char) : Bool := c = '[' || c.toNat = 123

/-- Is the character a closing bracket of the extraction regex class? -/
def isCloseB (c : Char) : Bool := c = ']' || c.toNat = 125

/-- Index of the first character satisfying `p`. -/
def firstIdxWhere (p : Char → Bool) : List Char → Option Nat
  | [] => none
  | c :: r =>
    if p c then some 0
    else
      match firstIdxWhere p r with
      | some k => some (k + 1)
      | none => none

/-- Index of the last character satisfying `p`. -/
def lastIdxWhere (p : Char → Bool) (l : List Char) : Option Nat :=
  match firstIdxWhere p l.reverse with
  | some k => some (l.length - 1 - k)
  | none => none

/-- `messageContent.match(/[\[{][\s\S]*[\]}]/)` (line 223): the leftmost
match runs from the first opening bracket to the last closing bracket after
it (the greedy `[\s\S]*`). -/
def extractJsonSub (s : String) : Option String :=
  let cs := s.data
  match firstIdxWhere isOpenB cs, lastIdxWhere isCloseB cs with
  | some i, some j =>
    if i < j then some (String.mk ((cs.drop i).take (j - i + 1))) else none
  | _, _ => none

/-- `parsed && typeof parsed === "object"`: JSON objects and arrays qualify,
`null`, scalars and parse failures do not. -/
def isObjLike : Option Jx → Bool
  | some (Jx.jobj _) => true
  | some (Jx.jarr _) => true
  | _ => false

/-- The regex-extraction leg (lines 222-230): the extracted substring, parsed,
kept only when it is an object/array. -/
def extractedObjOf (content : String) : Option Jx :=
  match extractJsonSub content with
  | some sub =>
    match safeJSONParse sub with
    | some p => if isObjLike (some p) then some p else none
    | none => none
  | none => none

/-- The structured-response branch of `createChatCompletion` (lines 213-246):
direct parse, then regex extraction, then the safe default.  Total by
construction — the source returns a value on every path of this branch
rather than throwing. -/
def handleStructuredResponse (messageContent : String) (data : Jx) (now : Nat)
    (modelName : String) : ActionPayload :=
  match safeJSONParse messageContent with
  | some p =>
    if isObjLike (some p) then normalizeActionObject p data now modelName
    else
      match extractedObjOf messageContent with
      | some q => normalizeActionObject q data now modelName
      | none => defaultActionPayload data messageContent now modelName
  | none =>
    match extractedObjOf messageContent with
    | some q => normalizeActionObject q data now modelName
    | none => defaultActionPayload data messageContent now modelName

/-! ### CustomLLMClient: retry loop of `createChatCompletion` (lines 195-297)

Each HTTP attempt (`doRequestOnce`) resolves with a parsed body or rejects
with a message; the outcomes are supplied by the oracle `oc` (indexed by
0-based attempt number) and token refreshes by `rf` (indexed by refresh
count).  The loop mirrors `while (attempt < maxAttempts)` with
`maxAttempts = 3`: on an error containing "Unauthorized" it invokes
`fetchOAuthConfigWithRetries` and updates the cached token, then throws
`Max retries exceeded` once `attempt >= maxAttempts`, else backs off (time
elided) and retries. -/

/-- Is `pat` a character-for-character prefix of `s`? -/
def isPrefixL : List Char → List Char → Bool
  | [], _ => true
  | _ :: _, [] => false
  | x :: xs, y :: ys => x = y && isPrefixL xs ys

/-- Does `s` contain `pat` as a substring (`String.prototype.includes`)? -/
def listContainsSub : List Char → List Char → Bool
  | s, pat =>
    if isPrefixL pat s then true
    else
      match s with
      | [] => false
      | _ :: rest => listContainsSub rest pat

/-- `s.includes(pat)`. -/
def strContains (s pat : String) : Bool := listContainsSub s.data pat.data

/-- `s.slice(0, n)`. -/
def strTake (n : Nat) (s : String) : String := String.mk (s.data.take n)

/-- Outcome of one `doRequestOnce` call. -/
inductive HttpOutcome where
  | ok (body : Jx)
  | badBody (body : String)
  | unauthorized
  | httpErr (status : Nat) (body : String)
  | netErr (msg : String)
deriving Repr

/-- The rejection message of a failed `doRequestOnce` (lines 176-189). -/
def outcomeMsg : HttpOutcome → String
  | HttpOutcome.ok _ => ""
  | HttpOutcome.badBody b => "Invalid JSON response (truncated): " ++ strTake 300 b
  | HttpOutcome.unauthorized => "Unauthorized"
  | HttpOutcome.httpErr st b => "HTTP " ++ toString st ++ ": " ++ strTake 300 b
  | HttpOutcome.netErr m => m

/-- Outcome of one `fetchOAuthConfigWithRetries` invocation (its internal
3-try subprocess loop summarised): a token, a response missing
`access_token` (the code first nulls the cached token, then throws and
catches), or a process failure (cached token untouched). -/
inductive RefreshOutcome where
  | succeeded (tok : String)
  | noToken
  | procFail (msg : String)
deriving Repr

/-- Client state threaded through the retry loop, with instrumentation:
`attempts` counts completed `doRequestOnce` calls, `refreshes` counts
token-refresh invocations. -/
structure CCState where
  oauthToken : Option String
  attempts : Nat
  refreshes : Nat
deriving Repr, DecidableEq

/-- The catch block of the retry loop (lines 256-293): when the error
message contains "Unauthorized", refresh the token (and track the refresh);
otherwise leave the state alone.  Attempt count advances either way. -/
def ccOnError (msg : String) (rf : Nat → RefreshOutcome) (st : CCState) : CCState :=
  if strContains msg "Unauthorized" then
    match rf st.refreshes with
    | RefreshOutcome.succeeded t => ⟨some t, st.attempts + 1, st.refreshes + 1⟩
    | RefreshOutcome.noToken => ⟨none, st.attempts + 1, st.refreshes + 1⟩
    | RefreshOutcome.procFail _ => ⟨st.oauthToken, st.attempts + 1, st.refreshes + 1⟩
  else ⟨st.oauthToken, st.attempts + 1, st.refreshes⟩

/-- The retry loop body.  `gas` is `maxAttempts - attempt`, so the loop
condition `attempt < maxAttempts` is `gas > 0`; the gas-0 result is the
source's unreachable post-loop throw. -/
def ccLoop (oc : Nat → HttpOutcome) (rf : Nat → RefreshOutcome) :
    Nat → CCState → Except String Jx × CCState
  | 0, st => (Except.error "createChatCompletion: exhausted retries (unexpected)", st)
  | gas + 1, st =>
    match oc st.attempts with
    | HttpOutcome.ok body =>
      (Except.ok body, ⟨st.oauthToken, st.attempts + 1, st.refreshes⟩)
    | e =>
      let msg := outcomeMsg e
      let st1 := ccOnError msg rf st
      if st.attempts + 1 ≥ 3 then (Except.error ("Max retries exceeded: " ++ msg), st1)
      else ccLoop oc rf gas st1

/-- The whole `createChatCompletion` request phase, entered with the cached
OAuth token: at most `maxAttempts = 3` HTTP attempts. -/
def createChatCompletionRetry (oc : Nat → HttpOutcome) (rf : Nat → RefreshOutcome)
    (tok : Option String) : Except String Jx × CCState :=
  ccLoop oc rf 3 ⟨tok, 0, 0⟩

/-! ### AutomationExecutor (`src/server/automation.ts`)

`execute` (lines 91-170) navigates when the prompt matches
`/(?:go to|open|navigate to|visit)\s+(?:https?:\/\/)?([^\s,]+\.[^\s,]+)/i`,
then splits the remainder with `parseMultiStepPrompt` (lines 235-290) and
feeds each step to `stagehand.act`.  The two regexes are rendered here by
direct matchers with JS semantics: leftmost start position, ordered
alternation, greedy quantifiers with the backtracking the fixed patterns can
actually exhibit, case-insensitive flag, and the `lastIndex` bookkeeping of
global `RegExp.exec` in the splitter loop. -/

/-- The JS `\s` class (ASCII part: space, tab, LF, VT, FF, CR). -/
def jsSpace (c : Char) : Bool :=
  c = ' ' || c.toNat = 9 || c.toNat = 10 || c.toNat = 11 || c.toNat = 12 || c.toNat = 13

/-- The JS `\w` class (for `\b` boundaries). -/
def isWordChar (c : Char) : Bool := c.isAlpha || c.isDigit || c = '_'

/-- Case-insensitive prefix test against an already-lowercase pattern. -/
def ciIsPrefix : List Char → List Char → Bool
  | [], _ => true
  | _ :: _, [] => false
  | p :: ps, t :: ts => p = t.toLower && ciIsPrefix ps ts

/-- JS `String.prototype.trim` over the `\s` class. -/
def trimChars (s : List Char) : List Char :=
  ((s.dropWhile jsSpace).reverse.dropWhile jsSpace).reverse

/-- Host part `([^\s,]+\.[^\s,]+)`: the maximal run of non-space non-comma
characters matches as the capture exactly when it has a dot in an interior
position (at least one character on each side). -/
def hasInternalDot (t : List Char) : Bool := ((t.drop 1).dropLast).contains '.'

/-- Try the optional-protocol + host tail of the navigation regex at `s`
(just after the whitespace run): greedy `(?:https?:\/\/)?` first, with
backtracking to the empty protocol on failure. -/
def matchHostFrom (s : List Char) : Option (Nat × List Char) :=
  let tryAt : Nat → Option (Nat × List Char) := fun proto =>
    let t := (s.drop proto).takeWhile (fun c => !jsSpace c && c ≠ ',')
    if hasInternalDot t then some (proto + t.length, t) else none
  if ciIsPrefix "https://".data s then
    match tryAt 8 with
    | some r => some r
    | none => tryAt 0
  else if ciIsPrefix "http://".data s then
    match tryAt 7 with
    | some r => some r
    | none => tryAt 0
  else tryAt 0

/-- Try one navigation keyword alternative at the current position:
keyword, `\s+` (greedy; the host cannot start with whitespace), then the
protocol/host tail.  Returns consumed length and the capture. -/
def navTryKw (kw : List Char) (s : List Char) : Option (Nat × List Char) :=
  if ciIsPrefix kw s then
    let rest := s.drop kw.length
    let ws := (rest.takeWhile jsSpace).length
    if ws = 0 then none
    else
      match matchHostFrom (rest.drop ws) with
      | some (n, cap) => some (kw.length + ws + n, cap)
      | none => none
  else none

/-- Ordered alternation `go to|open|navigate to|visit` at one position. -/
def navMatchAt (s : List Char) : Option (Nat × List Char) :=
  match navTryKw "go to".data s with
  | some r => some r
  | none =>
    match navTryKw "open".data s with
    | some r => some r
    | none =>
      match navTryKw "navigate to".data s with
      | some r => some r
      | none => navTryKw "visit".data s

/-- Leftmost match of the navigation regex: scan start positions left to
right.  Returns (start index, matched length, capture). -/
def navSearch : List Char → Nat → Option (Nat × Nat × List Char)
  | [], _ => none
  | c :: rest, idx =>
    match navMatchAt (c :: rest) with
    | some (n, cap) => some (idx, n, cap)
    | none => navSearch rest (idx + 1)

/-- First match of the navigation regex over a whole string. -/
def navRegexMatch (s : List Char) : Option (Nat × Nat × List Char) :=
  navSearch s 0

/-- The URL computation of `execute` (lines 102-104): capture group 1,
prefixed with `https://` unless it already starts with (case-sensitive)
`http`. -/
def extractUrl (prompt : String) : Option String :=
  match navRegexMatch prompt.data with
  | some (_, _, cap) =>
    let capS := String.mk cap
    some (if isPrefixL "http".data cap then capS else "https://" ++ capS)
  | none => none

/-- `prompt.replace(/(?:go to|...)\s+(?:https?:\/\/)?([^\s,]+\.[^\s,]+)\s*/i, "")`
(line 237): remove the first navigation match together with its trailing
whitespace. -/
def removeNavClause (s : List Char) : List Char :=
  match navRegexMatch s with
  | some (i, n, _) =>
    let after := s.drop (i + n)
    s.take i ++ after.drop ((after.takeWhile jsSpace).length)
  | none => s

/-- The action keywords of `parseMultiStepPrompt`, in source order (the
order of regex alternation). -/
def actionKeywords : List (List Char) :=
  ["click on".data, "click".data, "press".data, "tap".data,
   "type".data, "enter".data, "fill".data, "input".data,
   "select".data, "choose".data,
   "scroll to".data, "scroll".data,
   "hover over".data, "hover".data,
   "wait for".data,
   "submit".data,
   "upload".data]

/-- Ordered keyword alternation followed by one `\s` character, at the head
of `s`; returns the matched length (keyword + the whitespace). -/
def tryActionKw : List (List Char) → List Char → Option Nat
  | [], _ => none
  | kw :: more, s =>
    if ciIsPrefix kw s then
      match s.drop kw.length with
      | c :: _ => if jsSpace c then some (kw.length + 1) else tryActionKw more s
      | [] => tryActionKw more s
    else tryActionKw more s

/-- Scan for the keyword pattern `\b(click on|click|...)\s` from a given
index: the `\b` holds when the previous character is not a word character.
`prev` carries that character. -/
def execKwAux : Option Char → List Char → Nat → Option (Nat × Nat)
  | prev, c :: rest, idx =>
    let bOk := match prev with
      | none => true
      | some p => !isWordChar p
    if bOk then
      match tryActionKw actionKeywords (c :: rest) with
      | some len => some (idx, len)
      | none => execKwAux (some c) rest (idx + 1)
    else execKwAux (some c) rest (idx + 1)
  | _, [], _ => none

/-- `pattern.exec(full)` with `pattern.lastIndex = start` for the global
case-insensitive keyword pattern: (match index, match length). -/
def execKw (full : List Char) (start : Nat) : Option (Nat × Nat) :=
  execKwAux (if start = 0 then none else full.get? (start - 1)) (full.drop start) start

/-- Append inter-keyword text to the last collected part
(`parts[parts.length - 1] += " " + prevText`). -/
def appendToLast : List (List Char) → List Char → List (List Char)
  | [], _ => []
  | [p], ex => [p ++ ' ' :: ex]
  | p :: ps, ex => p :: appendToLast ps ex

/-- The `while ((match = pattern.exec(cleanPrompt)) !== null)` loop of
`parseMultiStepPrompt` (lines 259-283), with its `lastIndex` bookkeeping:
after a match at `m` whose follow-up probe finds the next match, the loop
sets `pattern.lastIndex = m + 1` and `lastIndex = m`.  The match start
strictly increases between iterations, so `|cleanPrompt| + 2` fuel is
never exhausted. -/
def pmspLoop (cp : List Char) : Nat → Nat → Nat → List (List Char) → List (List Char)
  | 0, _, _, parts => parts
  | fuel + 1, patLast, lastIdx, parts =>
    match execKw cp patLast with
    | none => parts
    | some (mIdx, mLen) =>
      let parts1 :=
        if mIdx > lastIdx then
          let prev := trimChars ((cp.drop lastIdx).take (mIdx - lastIdx))
          if prev.isEmpty || parts.isEmpty then parts else appendToLast parts prev
        else parts
      let rest := cp.drop mIdx
      match execKw cp (mIdx + mLen) with
      | some (nIdx, _) =>
        pmspLoop cp fuel (mIdx + 1) mIdx (parts1 ++ [trimChars (rest.take (nIdx - mIdx))])
      | none => parts1 ++ [trimChars rest]

/-- `AutomationExecutor.parseMultiStepPrompt` (lines 235-290). -/
def parseMultiStepPrompt (prompt : String) : List String :=
  let cp := removeNavClause prompt.data
  if (trimChars cp).isEmpty then []
  else
    let parts := pmspLoop cp (cp.length + 2) 0 0 []
    let parts := if parts.isEmpty then [trimChars cp] else parts
    (parts.filter (fun p => p.length > 0)).map String.mk

/-- One entry of `this.logs` (`AutomationLog`): the wall-clock `timestamp`
and the free-form `details` payload are elided. -/
structure LogEntry where
  action : String
  status : String
deriving Repr, DecidableEq

/-- `AutomationResult` of `automation.ts` (lines 15-21): `duration` is a
non-optional string there, so it is non-optional here. -/
structure AutomationResult where
  success : Bool
  result : Option Jx
  error : Option String
  logs : List LogEntry
  duration : String
deriving Repr

/-- SDK-call outcomes and timing for one `execute` run: `initialized` is
`stagehand !== null && page !== null`; `gotoOutcome` the result of
`page.goto`; `actOutcome i` the result of the i-th `stagehand.act` call;
`elapsedMs` the `Date.now()` difference used for the duration string. -/
structure ExecEnv where
  initialized : Bool
  gotoOutcome : Except String Unit
  actOutcome : Nat → Except String Jx
  elapsedMs : Nat

/-- The navigation/act calls `execute` issued, for observation. -/
structure ExecTrace where
  gotos : List String
  acts : List String
deriving Repr, DecidableEq

/-- `((Date.now() - startTime) / 1000).toFixed(1) + "s"` (round-half-up at
the hundredths; the float-rounding fuzz of `toFixed` is immaterial here). -/
def fmtDuration (ms : Nat) : String :=
  let t := (ms + 50) / 100
  toString (t / 10) ++ "." ++ toString (t % 10) ++ "s"

/-- The catch-block log entry of `execute`. -/
def failLogEntry : LogEntry := ⟨"Automation failed", "error"⟩

/-- The catch block of `execute` (lines 158-169): log the failure and return
a non-success result carrying the error message. -/
def execFailResult (logs : List LogEntry) (duration : String) (e : String) :
    AutomationResult :=
  ⟨false, none, some e, logs ++ [failLogEntry], duration⟩

/-- The `for` loop over steps (lines 117-130): log, `act`, log, with the
first rejection aborting the loop.  Returns (log entries, acts issued,
last-result-or-first-error); the inter-step delay is elided. -/
def stepLoop (acts : Nat → Except String Jx) (total : Nat) :
    List String → Nat → List LogEntry × List String × Except String Jx
  | [], _ => ([], [], Except.ok Jx.jnull)
  | s :: rest, i =>
    let l0 : List LogEntry :=
      [⟨"Step " ++ toString (i + 1) ++ "/" ++ toString total ++ ": " ++ s, "running"⟩]
    match acts i with
    | Except.error e => (l0, [s], Except.error e)
    | Except.ok r =>
      let l1 := l0 ++ [⟨"Step " ++ toString (i + 1) ++ " completed", "success"⟩]
      match rest with
      | [] => (l1, [s], Except.ok r)
      | _ :: _ =>
        let rec2 := stepLoop acts total rest (i + 1)
        (l1 ++ rec2.1, s :: rec2.2.1, rec2.2.2)

/-- The step-execution tail of `execute` (lines 110-157): multi-step loop
when more than one step was parsed, else a single `act(prompt)` call. -/
def executeSteps (env : ExecEnv) (prompt : String) (logs : List LogEntry)
    (tr : ExecTrace) : AutomationResult × ExecTrace :=
  let duration := fmtDuration env.elapsedMs
  let steps := parseMultiStepPrompt prompt
  if steps.length > 1 then
    let logsA := logs ++
      [⟨"Detected " ++ toString steps.length ++ " steps to execute", "running"⟩]
    let r3 := stepLoop env.actOutcome steps.length steps 0
    let tr2 : ExecTrace := ⟨tr.gotos, tr.acts ++ r3.2.1⟩
    match r3.2.2 with
    | Except.ok r =>
      (⟨true, some r, none,
        logsA ++ r3.1 ++ [⟨"All steps completed successfully", "success"⟩], duration⟩, tr2)
    | Except.error e => (execFailResult (logsA ++ r3.1) duration e, tr2)
  else
    let logsB := logs ++ [⟨"Processing automation with AI", "running"⟩]
    let tr2 : ExecTrace := ⟨tr.gotos, tr.acts ++ [prompt]⟩
    match env.actOutcome 0 with
    | Except.ok r =>
      (⟨true, some r, none,
        logsB ++ [⟨"Automation completed successfully", "success"⟩], duration⟩, tr2)
    | Except.error e => (execFailResult logsB duration e, tr2)

/-- `AutomationExecutor.execute(prompt)` (lines 91-170), with the issued
navigation/act calls as a second component.  `priorLogs` is the executor's
`this.logs` on entry.  The function is total: every throw inside the `try`
is caught and converted to a result — the "never rejects" behaviour of the
source. -/
def executeRun (env : ExecEnv) (priorLogs : List LogEntry) (prompt : String) :
    AutomationResult × ExecTrace :=
  let duration := fmtDuration env.elapsedMs
  if env.initialized = false then
    (execFailResult priorLogs duration "Automation not initialized", ⟨[], []⟩)
  else
    let logs1 := priorLogs ++ [⟨"Executing: " ++ prompt, "running"⟩]
    match extractUrl prompt with
    | some url =>
      let logs2 := logs1 ++ [⟨"Navigating to " ++ url, "running"⟩]
      let tr0 : ExecTrace := ⟨[url], []⟩
      match env.gotoOutcome with
      | Except.error e => (execFailResult logs2 duration e, tr0)
      | Except.ok _ =>
        executeSteps env prompt (logs2 ++ [⟨"Navigation completed", "success"⟩]) tr0
    | none => executeSteps env prompt logs1 ⟨[], []⟩

/-- First failing act among the parsed steps, by 0-based call index. -/
def firstActFailL (acts : Nat → Except String Jx) : List String → Nat → Option String
  | [], _ => none
  | _ :: rest, i =>
    match acts i with
    | Except.error e => some e
    | Except.ok _ => firstActFailL acts rest (i + 1)

/-- First failure among the act calls of the step phase: the failing act of
the multi-step loop, or of the single `act(prompt)` call. -/
def stepsFailure (env : ExecEnv) (prompt : String) : Option String :=
  let steps := parseMultiStepPrompt prompt
  if steps.length > 1 then firstActFailL env.actOutcome steps 0
  else
    match env.actOutcome 0 with
    | Except.error e => some e
    | Except.ok _ => none

/-- Specification-level characterisation of a failed `execute` run: the
message of the earliest failing operation (the initialization guard, the
navigation, or an act call), `none` when everything succeeds. -/
def firstFailure (env : ExecEnv) (prompt : String) : Option String :=
  if env.initialized = false then some "Automation not initialized"
  else
    match extractUrl prompt, env.gotoOutcome with
    | some _, Except.error e => some e
    | _, _ => stepsFailure env prompt

/-! ### WebSocket routes and storage (`src/server/routes.ts`)

The `ws.on("message")` handler (lines 21-127) is embedded as a function of
the parsed message value and an oracle for the effectful calls it makes
(settings read, generated id, `initialize` outcome, `execute`/`executeAgent`
results).  `ws.send` is modelled as an emitted event (the `ws` library does
not throw synchronously on send in this handler); the `execution_log` events
sent from inside the executor are not part of this handler and are elided.
The storage layer is `MemStorage` (a `Map` keyed by generated id). -/

/-- The settings row; only `automationMode` is read by the handler.  The
in-memory default settings have no `automationMode` key, hence the
`Option`. -/
structure SettingsRec where
  selectedModel : String
  automationMode : Option String
  screenshotMode : String
  theme : String
deriving Repr, DecidableEq

/-- One `Automation` row as created/updated by the handler. -/
structure AutomationRec where
  id : String
  prompt : String
  status : String
  model : String
  result : Option Jx
  logs : Option (List LogEntry)
  error : Option String
  duration : Option String
deriving Repr

/-- The fields passed to `storage.updateAutomation` at completion.  `none`
in `result`/`duration` means the field is not set by the update (the
exception path passes neither). -/
structure UpdatePayload where
  status : String
  result : Option Jx
  error : Option String
  logs : Option (List LogEntry)
  duration : Option String
deriving Repr

/-- Storage calls issued by the handler. -/
inductive StoreOp where
  | create (rec : AutomationRec)
  | update (id : String) (u : UpdatePayload)
deriving Repr

/-- Events sent to the client socket (payload fields that matter to the
claims). -/
inductive WsEvent where
  | started (prompt : String)
  | completed (automationId : String) (result : Option Jx) (duration : String)
      (logs : List LogEntry)
  | errored (automationId : String) (error : String)
deriving Repr

/-- The validated `execute_automation` payload. -/
structure ExecParams where
  prompt : String
  model : String
deriving Repr, DecidableEq

/-- `z.enum(["openai", "anthropic", "gemini"])`. -/
def isValidModel (m : String) : Bool :=
  m = "openai" || m = "anthropic" || m = "gemini"

/-- `executeSchema.parse(data)` (lines 28-34): object with literal `type`,
non-empty string `prompt`, and the model enum; any violation throws a
`ZodError` (its message text is abstracted). -/
def zodParseExecute (msg : Jx) : Except String ExecParams :=
  match msg with
  | Jx.jobj _ =>
    match jget msg "type", jget msg "prompt", jget msg "model" with
    | some (Jx.jstr t), some (Jx.jstr p), some (Jx.jstr m) =>
      if t = "execute_automation" ∧ 1 ≤ p.length ∧ isValidModel m = true then
        Except.ok ⟨p, m⟩
      else Except.error "Invalid execute_automation payload"
    | _, _, _ => Except.error "Invalid execute_automation payload"
  | _ => Except.error "Expected object payload"

/-- Oracle for the effectful calls of one message handling: socket openness
at error time, the settings row, the generated automation id, the
`initialize` outcome, the executor logs visible in the catch block, and the
results of `execute` / `executeAgent` (both total, per `executeRun`). -/
structure HandlerEnv where
  wsOpen : Bool
  settings : Option SettingsRec
  newId : String
  initResult : Except String Unit
  initLogs : List LogEntry
  actModeResult : AutomationResult
  agentModeResult : AutomationResult

/-- Observable outcome of one message handling. -/
structure HandlerOut where
  events : List WsEvent
  ops : List StoreOp
  executorCreated : Bool
  cleanedUp : Bool
deriving Repr

/-- The `ws.on("message")` handler (lines 21-127) for one parsed message.
Unknown `type` values are ignored; a `null` message throws on the `.type`
read and lands in the outer catch; a zod failure lands in the outer catch,
which sends `execution_error` when the socket is still open.  On the
executor path the record is created with status `running`, then updated and
answered once, and the `finally` block always cleans up. -/
def handleWsMessage (msg : Jx) (env : HandlerEnv) : HandlerOut :=
  match msg with
  | Jx.jnull =>
    ⟨if env.wsOpen then [WsEvent.errored "" "Cannot read type of null"] else [],
     [], false, false⟩
  | _ =>
    match jget msg "type" with
    | some (Jx.jstr "execute_automation") =>
      match zodParseExecute msg with
      | Except.error e =>
        ⟨if env.wsOpen then [WsEvent.errored "" e] else [], [], false, false⟩
      | Except.ok ps =>
        let mode :=
          match env.settings with
          | some s =>
            match s.automationMode with
            | some m => if m = "" then "act" else m
            | none => "act"
          | none => "act"
        let rec0 : AutomationRec :=
          ⟨env.newId, ps.prompt, "running", ps.model, none, none, none, none⟩
        let r := if mode = "agent" then env.agentModeResult else env.actModeResult
        match env.initResult with
        | Except.ok _ =>
          let u : UpdatePayload :=
            ⟨if r.success then "success" else "error", r.result, r.error,
             some r.logs, some r.duration⟩
          ⟨[WsEvent.started ps.prompt,
            WsEvent.completed env.newId r.result r.duration r.logs],
           [StoreOp.create rec0, StoreOp.update env.newId u], true, true⟩
        | Except.error e =>
          let u : UpdatePayload := ⟨"error", none, some e, some env.initLogs, none⟩
          ⟨[WsEvent.started ps.prompt, WsEvent.errored env.newId e],
           [StoreOp.create rec0, StoreOp.update env.newId u], true, true⟩
    | _ => ⟨[], [], false, false⟩

/-- Terminal events: `execution_completed` and `execution_error`. -/
def isTerminalEvent : WsEvent → Bool
  | WsEvent.completed _ _ _ _ => true
  | WsEvent.errored _ _ => true
  | _ => false

/-- Number of terminal events in a list. -/
def terminalCount (evs : List WsEvent) : Nat := (evs.filter isTerminalEvent).length

/-- Executor state as the `close` handler sees it: whether `this.stagehand`
is set, the outcome `stagehand.close()` would have, and the accumulated
logs. -/
structure ExecutorSt where
  hasStagehand : Bool
  closeOutcome : Except String Unit
  logs : List LogEntry
deriving Repr

/-- `AutomationExecutor.cleanup()` (lines 373-382): close the browser when
present; any rejection is caught and logged.  Total — the promise it
returns never rejects. -/
def cleanupExec (e : ExecutorSt) : ExecutorSt :=
  if e.hasStagehand then
    match e.closeOutcome with
    | Except.ok _ =>
      ⟨e.hasStagehand, e.closeOutcome, e.logs ++ [⟨"Browser closed", "success"⟩]⟩
    | Except.error _ =>
      ⟨e.hasStagehand, e.closeOutcome, e.logs ++ [⟨"Cleanup failed", "error"⟩]⟩
  else e

/-- `Map.prototype.get` over the executor registry (keys are unique in a
`Map`; sockets are modelled by numeric ids). -/
def lookupSock : List (Nat × ExecutorSt) → Nat → Option ExecutorSt
  | [], _ => none
  | (k, v) :: rest, ws => if k = ws then some v else lookupSock rest ws

/-- Result of the socket-close handler: the registry afterwards and the
executor that was cleaned up, if any. -/
structure CloseOut where
  remaining : List (Nat × ExecutorSt)
  cleaned : Option ExecutorSt

/-- The `ws.on("close")` handler (lines 129-139): look up the executor for
the socket, await its (non-rejecting) `cleanup`, and delete it from
`activeExecutors`. -/
def handleSocketClose (execs : List (Nat × ExecutorSt)) (ws : Nat) : CloseOut :=
  match lookupSock execs ws with
  | some e => ⟨execs.filter (fun kv => kv.1 != ws), some (cleanupExec e)⟩
  | none => ⟨execs, none⟩

/-- `Map.prototype.get` over the automation store. -/
def lookupRow : List (String × AutomationRec) → String → Option AutomationRec
  | [], _ => none
  | (k, v) :: rest, i => if k = i then some v else lookupRow rest i

/-- `MemStorage.deleteAutomation(id)` (lines 299-301): `Map.delete` —
whether the key existed, and the store without it. -/
def memDeleteAutomation (rows : List (String × AutomationRec)) (i : String) :
    Bool × List (String × AutomationRec) :=
  ((lookupRow rows i).isSome, rows.filter (fun kv => kv.1 != i))

/-- An HTTP response of the REST layer. -/
structure HttpResp where
  status : Nat
  body : Jx
deriving Repr

/-- `DELETE /api/automations/:id` (lines 170-180): 404 with
`{error: "Automation not found"}` when `deleteAutomation` returns false,
else 200 `{success: true}`. -/
def deleteAutomationRoute (rows : List (String × AutomationRec)) (i : String) :
    HttpResp × List (String × AutomationRec) :=
  let d := memDeleteAutomation rows i
  if d.1 = false then
    (⟨404, Jx.jobj [("error", Jx.jstr "Automation not found")]⟩, d.2)
  else (⟨200, Jx.jobj [("success", Jx.jbool true)]⟩, d.2)

/-! ### Helper lemmas shared by the claim theorems -/

/-- Every branch of the catch block advances the attempt counter by one. -/
theorem ccOnError_attempts (msg : String) (rf : Nat → RefreshOutcome) (st : CCState) :
    (ccOnError msg rf st).attempts = st.attempts + 1 := by
  simp only [ccOnError]
  split
  · split <;> rfl
  · rfl

/-- The retry loop performs at most `gas` further attempts. -/
theorem ccLoop_attempts_le (oc : Nat → HttpOutcome) (rf : Nat → RefreshOutcome) :
    ∀ (gas : Nat) (st : CCState),
      (ccLoop oc rf gas st).2.attempts ≤ st.attempts + gas := by
  intro gas
  induction gas with
  | zero => intro st; simp [ccLoop]
  | succ g ih =>
    intro st
    simp only [ccLoop]
    split
    · simp
    · split
      · simp [ccOnError_attempts]
      · calc (ccLoop oc rf g (ccOnError _ rf st)).2.attempts
            ≤ (ccOnError _ rf st).attempts + g := ih _
          _ = st.attempts + 1 + g := by rw [ccOnError_attempts]
          _ ≤ st.attempts + (g + 1) := by omega

/-- A message that passes the zod schema is an object whose `type` field is
the `execute_automation` literal. -/
theorem zod_ok_shape (msg : Jx) (ps : ExecParams)
    (h : zodParseExecute msg = Except.ok ps) :
    jget msg "type" = some (Jx.jstr "execute_automation") ∧ ∃ fs, msg = Jx.jobj fs := by
  match msg with
  | Jx.jnull => simp [zodParseExecute] at h
  | Jx.jbool b => simp [zodParseExecute] at h
  | Jx.jnum l => simp [zodParseExecute] at h
  | Jx.jstr s => simp [zodParseExecute] at h
  | Jx.jarr xs => simp [zodParseExecute] at h
  | Jx.jobj fs =>
    refine ⟨?_, fs, rfl⟩
    simp only [zodParseExecute] at h
    split at h
    · rename_i t p m ht hp hm
      split at h
      · rename_i hcond
        rw [ht, hcond.1]
      · exact absurd h (by simp)
    · exact absurd h (by simp)

/-- A failing act propagates out of the step loop as its error. -/
theorem stepLoop_fail (acts : Nat → Except String Jx) (total : Nat) :
    ∀ (steps : List String) (i : Nat) (e : String),
      firstActFailL acts steps i = some e →
      (stepLoop acts total steps i).2.2 = Except.error e := by
  intro steps
  induction steps with
  | nil => intro i e h; simp [firstActFailL] at h
  | cons s rest ih =>
    intro i e h
    simp only [firstActFailL] at h
    simp only [stepLoop]
    cases hact : acts i with
    | error e2 =>
      rw [hact] at h
      simp at h
      simp [h]
    | ok r =>
      rw [hact] at h
      simp only at h
      cases rest with
      | nil => simp [firstActFailL] at h
      | cons s2 rest2 => simpa using ih (i + 1) e h

/-- When no act fails the step loop ends with some successful result. -/
theorem stepLoop_ok (acts : Nat → Except String Jx) (total : Nat) :
    ∀ (steps : List String) (i : Nat),
      firstActFailL acts steps i = none →
      ∃ r, (stepLoop acts total steps i).2.2 = Except.ok r := by
  intro steps
  induction steps with
  | nil => intro i _; exact ⟨Jx.jnull, rfl⟩
  | cons s rest ih =>
    intro i h
    simp only [firstActFailL] at h
    simp only [stepLoop]
    cases hact : acts i with
    | error e2 => rw [hact] at h; simp at h
    | ok r =>
      rw [hact] at h
      simp only at h
      cases rest with
      | nil => exact ⟨r, rfl⟩
      | cons s2 rest2 =>
        obtain ⟨r2, hr2⟩ := ih (i + 1) h
        exact ⟨r2, by simpa using hr2⟩

/-- The step phase of `execute`: logs nonempty, duration formatted, and the
result fields mirror the first act failure. -/
theorem executeSteps_spec (env : ExecEnv) (prompt : String) (logs : List LogEntry)
    (tr : ExecTrace) :
    (executeSteps env prompt logs tr).1.logs ≠ [] ∧
    (executeSteps env prompt logs tr).1.duration = fmtDuration env.elapsedMs ∧
    (executeSteps env prompt logs tr).1.error = stepsFailure env prompt ∧
    (executeSteps env prompt logs tr).1.success = (stepsFailure env prompt).isNone := by
  simp only [executeSteps, stepsFailure]
  split
  · cases hF : firstActFailL env.actOutcome (parseMultiStepPrompt prompt) 0 with
    | none =>
      obtain ⟨r, hr⟩ := stepLoop_ok env.actOutcome (parseMultiStepPrompt prompt).length
        (parseMultiStepPrompt prompt) 0 hF
      rw [hr]
      refine ⟨by simp, rfl, rfl, rfl⟩
    | some e =>
      rw [stepLoop_fail env.actOutcome (parseMultiStepPrompt prompt).length
        (parseMultiStepPrompt prompt) 0 e hF]
      refine ⟨by simp [execFailResult], rfl, rfl, rfl⟩
  · cases hact : env.actOutcome 0 with
    | ok r => refine ⟨by simp, rfl, rfl, rfl⟩
    | error e => refine ⟨by simp [execFailResult], rfl, rfl, rfl⟩

/-- The formatted duration string is never empty. -/
theorem fmtDuration_ne_empty (ms : Nat) : fmtDuration ms ≠ "" := by
  intro h
  have hl := congrArg String.length h
  simp [fmtDuration, String.length_append] at hl
  exact absurd hl.2 (by decide)

/-! ### Claim theorems -/

/-- C1: in the structured-response branch of `createChatCompletion`, when the
2xx message content does not directly parse as a JSON object and the regex
extraction of an embedded JSON object also fails, the client returns (rather
than throwing — `handleStructuredResponse` is total) the safe default action
payload, whose `elementId` is `"0-1"` and whose `method` is `null`. -/
theorem c1_safe_default (content : String) (data : Jx) (now : Nat) (mn : String)
    (h1 : isObjLike (safeJSONParse content) = false)
    (h2 : extractedObjOf content = none) :
    handleStructuredResponse content data now mn =
      defaultActionPayload data content now mn ∧
    (handleStructuredResponse content data now mn).elementId = "0-1" ∧
    (handleStructuredResponse content data now mn).method = none := by
  have hmain : handleStructuredResponse content data now mn =
      defaultActionPayload data content now mn := by
    simp only [handleStructuredResponse]
    split
    · rename_i p hp
      rw [hp] at h1
      rw [if_neg (by simp [h1]), h2]
    · rw [h2]
  refine ⟨hmain, ?_, ?_⟩ <;> rw [hmain] <;> rfl

/-- C1 witness: a plain-prose content neither parses nor contains an
extractable JSON object, and the handler yields the default action. -/
theorem c1_safe_default_witness :
    isObjLike (safeJSONParse "plain text reply") = false ∧
    extractedObjOf "plain text reply" = none ∧
    (handleStructuredResponse "plain text reply" Jx.jnull 0 "gpt-4o").elementId = "0-1" ∧
    (handleStructuredResponse "plain text reply" Jx.jnull 0 "gpt-4o").method = none :=
  ⟨rfl, rfl, (c1_safe_default "plain text reply" Jx.jnull 0 "gpt-4o" rfl rfl).2.1,
   (c1_safe_default "plain text reply" Jx.jnull 0 "gpt-4o" rfl rfl).2.2⟩

/-- All HTTP attempts reject with 401. -/
def c2AllUnauthorized : Nat → HttpOutcome := fun _ => HttpOutcome.unauthorized

/-- Every token refresh succeeds. -/
def c2RefreshOk : Nat → RefreshOutcome :=
  fun n => RefreshOutcome.succeeded ("tok" ++ toString n)

/-- C2 counterexample: with a 401 on the first attempt (and on every
subsequent one), `createChatCompletion` gives up only after 3 HTTP attempts,
i.e. it retries twice extra after the first 401 — not "exactly once extra"
as the claim states. -/
theorem c2_counterexample :
    c2AllUnauthorized 0 = HttpOutcome.unauthorized ∧
    (createChatCompletionRetry c2AllUnauthorized c2RefreshOk (some "tok")).2.attempts = 3 ∧
    (createChatCompletionRetry c2AllUnauthorized c2RefreshOk (some "tok")).1 =
      Except.error "Max retries exceeded: Unauthorized" ∧
    ¬ (createChatCompletionRetry c2AllUnauthorized c2RefreshOk (some "tok")).2.attempts = 2 := by
  refine ⟨rfl, rfl, rfl, by decide⟩

/-- C2 (amended): HTTP attempts are always bounded by 3; after a
first-attempt 401 the client refreshes the token (at least one refresh) and
retries — up to two extra attempts — and when the second attempt succeeds
the call returns its body after exactly 2 attempts. -/
theorem c2_amended (oc : Nat → HttpOutcome) (rf : Nat → RefreshOutcome)
    (tok : Option String) (b : Jx)
    (h1 : oc 0 = HttpOutcome.unauthorized) (h2 : oc 1 = HttpOutcome.ok b) :
    (∀ oc2 rf2 tok2,
      (createChatCompletionRetry oc2 rf2 tok2).2.attempts ≤ 3) ∧
    (createChatCompletionRetry oc rf tok).2.attempts = 2 ∧
    (createChatCompletionRetry oc rf tok).1 = Except.ok b ∧
    1 ≤ (createChatCompletionRetry oc rf tok).2.refreshes := by
  have hbound : ∀ oc2 rf2 tok2,
      (createChatCompletionRetry oc2 rf2 tok2).2.attempts ≤ 3 := by
    intro oc2 rf2 tok2
    simpa [createChatCompletionRetry] using ccLoop_attempts_le oc2 rf2 3 ⟨tok2, 0, 0⟩
  obtain ⟨t0, r0, hE, hr0⟩ :
      ∃ t0 r0, ccOnError "Unauthorized" rf ⟨tok, 0, 0⟩ = ⟨t0, 1, r0⟩ ∧ 1 ≤ r0 := by
    simp only [ccOnError]
    rw [if_pos (by rfl)]
    match rf 0 with
    | RefreshOutcome.succeeded t => exact ⟨some t, 1, rfl, le_refl 1⟩
    | RefreshOutcome.noToken => exact ⟨none, 1, rfl, le_refl 1⟩
    | RefreshOutcome.procFail m => exact ⟨tok, 1, rfl, le_refl 1⟩
  have step1 : createChatCompletionRetry oc rf tok = ccLoop oc rf 2 ⟨t0, 1, r0⟩ := by
    simp only [createChatCompletionRetry, ccLoop, h1, outcomeMsg]
    rw [if_neg (by omega)]
    rw [hE]
  have step2 : ccLoop oc rf 2 ⟨t0, 1, r0⟩ = (Except.ok b, ⟨t0, 2, r0⟩) := by
    simp only [ccLoop, h2]
  rw [step1, step2]
  exact ⟨hbound, rfl, rfl, hr0⟩

/-- First attempt 401, second attempt succeeds. -/
def c2FirstUnauthorized : Nat → HttpOutcome :=
  fun n => if n = 0 then HttpOutcome.unauthorized else HttpOutcome.ok (Jx.jstr "done")

/-- C2 witness: the amended behaviour at a concrete run (401 then success). -/
theorem c2_amended_witness :
    (createChatCompletionRetry c2FirstUnauthorized c2RefreshOk none).2.attempts ≤ 3 ∧
    (createChatCompletionRetry c2FirstUnauthorized c2RefreshOk none).2.attempts = 2 ∧
    (createChatCompletionRetry c2FirstUnauthorized c2RefreshOk none).1 =
      Except.ok (Jx.jstr "done") ∧
    1 ≤ (createChatCompletionRetry c2FirstUnauthorized c2RefreshOk none).2.refreshes :=
  ⟨(c2_amended c2FirstUnauthorized c2RefreshOk none (Jx.jstr "done") rfl rfl).1
      c2FirstUnauthorized c2RefreshOk none,
   (c2_amended c2FirstUnauthorized c2RefreshOk none (Jx.jstr "done") rfl rfl).2.1,
   (c2_amended c2FirstUnauthorized c2RefreshOk none (Jx.jstr "done") rfl rfl).2.2.1,
   (c2_amended c2FirstUnauthorized c2RefreshOk none (Jx.jstr "done") rfl rfl).2.2.2⟩

/-- The prompt of the documented splitting example. -/
def demoPrompt : String := "go to example.com click the button type hello"

/-- An initialized executor whose SDK calls all succeed. -/
def demoEnv : ExecEnv := ⟨true, Except.ok (), fun _ => Except.ok Jx.jnull, 1500⟩

/-- C3: on `"go to example.com click the button type hello"`, `execute`
performs exactly one navigation, to `https://example.com`, and
`parseMultiStepPrompt` yields exactly two sub-steps, the first beginning
with "click" and the second with "type".  (The heuristic duplicates the
inter-keyword text into the first step; the claim's beginnings still
hold.) -/
theorem c3_prompt_split :
    (executeRun demoEnv [] demoPrompt).2.gotos = ["https://example.com"] ∧
    parseMultiStepPrompt demoPrompt =
      ["click the button click the button", "type hello"] ∧
    (parseMultiStepPrompt demoPrompt).length = 2 ∧
    isPrefixL "click".data "click the button click the button".data = true ∧
    isPrefixL "type".data "type hello".data = true := by
  refine ⟨rfl, rfl, rfl, rfl, rfl⟩

/-- C4: a message that passes the zod schema produces exactly one terminal
event (`execution_completed` or `execution_error`) — never both, never
neither — for any outcome of the executor calls. -/
theorem c4_exactly_one_terminal (msg : Jx) (env : HandlerEnv) (ps : ExecParams)
    (h : zodParseExecute msg = Except.ok ps) :
    terminalCount (handleWsMessage msg env).events = 1 := by
  obtain ⟨ht, fs, rfl⟩ := zod_ok_shape msg ps h
  simp only [handleWsMessage, ht, h]
  split
  · simp [terminalCount, isTerminalEvent]
  · simp [terminalCount, isTerminalEvent]

/-- A well-formed `execute_automation` message. -/
def c4msg : Jx :=
  Jx.jobj [("type", Jx.jstr "execute_automation"), ("prompt", Jx.jstr "go"),
           ("model", Jx.jstr "openai")]

/-- A successful executor outcome. -/
def c4result : AutomationResult := ⟨true, some Jx.jnull, none, [], "0.1s"⟩

/-- A handler environment whose executor calls succeed. -/
def c4env : HandlerEnv := ⟨true, none, "id1", Except.ok (), [], c4result, c4result⟩

/-- C4 witness: the concrete valid message yields exactly one terminal
event. -/
theorem c4_exactly_one_terminal_witness :
    zodParseExecute c4msg = Except.ok ⟨"go", "openai"⟩ ∧
    terminalCount (handleWsMessage c4msg c4env).events = 1 :=
  ⟨rfl, c4_exactly_one_terminal c4msg c4env ⟨"go", "openai"⟩ rfl⟩

/-- C5: an `execute_automation` message whose `model` is not in the enum
fails validation, so the (total — no crash) handler sends a single
`execution_error` event, creates no executor and touches no storage. -/
theorem c5_invalid_model (msg : Jx) (env : HandlerEnv) (m : String)
    (ht : jget msg "type" = some (Jx.jstr "execute_automation"))
    (hm : jget msg "model" = some (Jx.jstr m))
    (hbad : isValidModel m = false)
    (hop : env.wsOpen = true) :
    (∃ e, (handleWsMessage msg env).events = [WsEvent.errored "" e]) ∧
    (handleWsMessage msg env).ops = [] ∧
    (handleWsMessage msg env).executorCreated = false := by
  have hobj : ∃ fs, msg = Jx.jobj fs := by
    match msg with
    | Jx.jobj fs => exact ⟨fs, rfl⟩
    | Jx.jnull => simp [jget] at ht
    | Jx.jbool b => simp [jget] at ht
    | Jx.jnum l => simp [jget] at ht
    | Jx.jstr s => simp [jget] at ht
    | Jx.jarr xs => simp [jget] at ht
  obtain ⟨fs, rfl⟩ := hobj
  have hzod : ∃ e, zodParseExecute (Jx.jobj fs) = Except.error e := by
    simp only [zodParseExecute]
    split
    · rename_i t p m2 ht2 hp2 hm2
      rw [hm] at hm2
      have hmm : m2 = m := by
        have := hm2
        injection this with h1
        injection h1 with h2
        exact h2.symm
      split
      · rename_i hcond
        rw [hmm] at hcond
        rw [hcond.2.2] at hbad
        exact absurd hbad (by simp)
      · exact ⟨_, rfl⟩
    · exact ⟨_, rfl⟩
  obtain ⟨e, he⟩ := hzod
  refine ⟨⟨e, ?_⟩, ?_, ?_⟩ <;> simp [handleWsMessage, ht, he, hop]

/-- An `execute_automation` message with an unsupported model. -/
def c5msg : Jx :=
  Jx.jobj [("type", Jx.jstr "execute_automation"), ("prompt", Jx.jstr "go"),
           ("model", Jx.jstr "llama")]

/-- C5 witness: the concrete bad-model message is answered by a single
validation-error event and no executor. -/
theorem c5_invalid_model_witness :
    jget c5msg "type" = some (Jx.jstr "execute_automation") ∧
    isValidModel "llama" = false ∧
    (∃ e, (handleWsMessage c5msg c4env).events = [WsEvent.errored "" e]) ∧
    (handleWsMessage c5msg c4env).executorCreated = false :=
  ⟨rfl, rfl, (c5_invalid_model c5msg c4env "llama" rfl rfl rfl rfl).1,
   (c5_invalid_model c5msg c4env "llama" rfl rfl rfl rfl).2.2⟩

/-- C6: when the closing socket has an executor registered, the close
handler invokes its (total, hence rejection-free) `cleanup` and removes it
from `activeExecutors`. -/
theorem c6_close_cleans (execs : List (Nat × ExecutorSt)) (ws : Nat) (e : ExecutorSt)
    (h : lookupSock execs ws = some e) :
    (handleSocketClose execs ws).cleaned = some (cleanupExec e) ∧
    lookupSock (handleSocketClose execs ws).remaining ws = none := by
  have hfilter : ∀ l : List (Nat × ExecutorSt),
      lookupSock (l.filter (fun kv => kv.1 != ws)) ws = none := by
    intro l
    induction l with
    | nil => rfl
    | cons kv rest ih =>
      by_cases hk : kv.1 = ws
      · have hb : (kv.1 != ws) = false := by simp [bne_iff_ne, hk]
        simp [List.filter, hb, ih]
      · have hb : (kv.1 != ws) = true := by simpa [bne_iff_ne] using hk
        simp [List.filter, hb, lookupSock, hk, ih]
  constructor
  · simp [handleSocketClose, h]
  · simp [handleSocketClose, h, hfilter]

/-- An executor with an open browser session. -/
def c6exec : ExecutorSt := ⟨true, Except.ok (), []⟩

/-- C6 witness: closing socket 7 cleans up and deregisters its executor. -/
theorem c6_close_cleans_witness :
    lookupSock [(7, c6exec)] 7 = some c6exec ∧
    (handleSocketClose [(7, c6exec)] 7).cleaned = some (cleanupExec c6exec) ∧
    lookupSock (handleSocketClose [(7, c6exec)] 7).remaining 7 = none :=
  ⟨rfl, (c6_close_cleans [(7, c6exec)] 7 c6exec rfl).1,
   (c6_close_cleans [(7, c6exec)] 7 c6exec rfl).2⟩

/-- Is the op a creation with status `running`? -/
def isRunningCreate : StoreOp → Bool
  | StoreOp.create r => r.status == "running"
  | _ => false

/-- Is the op an update? -/
def isUpdateOp : StoreOp → Bool
  | StoreOp.update _ _ => true
  | _ => false

/-- Does an update set status to success/error and fill result, error, logs
and duration, as claim C7 states? -/
def updateFilledOk : StoreOp → Bool
  | StoreOp.update _ u =>
    (u.status == "success" || u.status == "error") && u.result.isSome &&
      u.error.isSome && u.logs.isSome && u.duration.isSome
  | _ => true

/-- Claim C7 as stated, as a decidable predicate on a handling outcome:
exactly one running-create, exactly one update, and every update has
result/error/logs/duration filled in. -/
def c7Stated (out : HandlerOut) : Bool :=
  ((out.ops.filter isRunningCreate).length == 1) &&
  ((out.ops.filter isUpdateOp).length == 1) &&
  out.ops.all updateFilledOk

/-- A handler environment in which `initialize` throws (no API key). -/
def c7env : HandlerEnv :=
  ⟨true, none, "id1",
   Except.error "API key not found for model: openai. Please set OPENAI_API_KEY environment variable.",
   [⟨"Initializing browser automation", "running"⟩,
    ⟨"Failed to initialize browser", "error"⟩],
   c4result, c4result⟩

/-- C7 counterexample: on a validated message whose `initialize` throws, the
single update sets only status/error/logs — `duration` (and `result`) are
not filled in, so the claim as stated is false on this input. -/
theorem c7_counterexample :
    zodParseExecute c4msg = Except.ok ⟨"go", "openai"⟩ ∧
    (handleWsMessage c4msg c7env).ops =
      [StoreOp.create ⟨"id1", "go", "running", "openai", none, none, none, none⟩,
       StoreOp.update "id1"
         ⟨"error", none,
          some "API key not found for model: openai. Please set OPENAI_API_KEY environment variable.",
          some [⟨"Initializing browser automation", "running"⟩,
                ⟨"Failed to initialize browser", "error"⟩], none⟩] ∧
    c7Stated (handleWsMessage c4msg c7env) = false := by
  refine ⟨rfl, rfl, rfl⟩

/-- C7 (amended): every validated message creates exactly one record (status
`running`) followed by exactly one update of that record, whose status is
`success` or `error` and which carries logs; on the normal path the update
fills `duration` (and the executor-result fields), while on the exception
path it sets status/error/logs and leaves `duration`/`result` unset. -/
theorem c7_amended (msg : Jx) (env : HandlerEnv) (ps : ExecParams)
    (h : zodParseExecute msg = Except.ok ps) :
    ∃ u, (handleWsMessage msg env).ops =
        [StoreOp.create ⟨env.newId, ps.prompt, "running", ps.model, none, none, none, none⟩,
         StoreOp.update env.newId u] ∧
      (u.status = "success" ∨ u.status = "error") ∧
      u.logs.isSome = true ∧
      (∀ e0, env.initResult = Except.error e0 →
        u.status = "error" ∧ u.error = some e0 ∧ u.duration = none ∧ u.result = none) ∧
      (∀ x, env.initResult = Except.ok x → u.duration.isSome = true) := by
  obtain ⟨ht, fs, rfl⟩ := zod_ok_shape msg ps h
  simp only [handleWsMessage, ht, h]
  split
  · rename_i x hinit
    refine ⟨_, rfl, ?_, rfl, ?_, ?_⟩
    · split <;> split <;> simp
    · intro e0 he0
      rw [hinit] at he0
      exact absurd he0 (by simp)
    · intro x2 _
      rfl
  · rename_i e hinit
    refine ⟨_, rfl, Or.inr rfl, rfl, ?_, ?_⟩
    · intro e0 he0
      rw [hinit] at he0
      injection he0 with hh
      exact ⟨rfl, by rw [hh], rfl, rfl⟩
    · intro x2 hx2
      rw [hinit] at hx2
      exact absurd hx2 (by simp)

/-- The record created for the C7 witness message. -/
def c7okRec : AutomationRec := ⟨"id1", "go", "running", "openai", none, none, none, none⟩

/-- The completion update of the C7 witness run. -/
def c7okUpd : UpdatePayload := ⟨"success", some Jx.jnull, none, some [], some "0.1s"⟩

/-- C7 witness: on the normal path the ops are one create then one update
with status success and duration filled. -/
theorem c7_amended_witness :
    (handleWsMessage c4msg c4env).ops =
      [StoreOp.create c7okRec, StoreOp.update "id1" c7okUpd] ∧
    (c7okUpd.status = "success" ∨ c7okUpd.status = "error") ∧
    c7okUpd.duration.isSome = true := by
  obtain ⟨u, hops, hst, hlogs, herr, hdur⟩ :=
    c7_amended c4msg c4env ⟨"go", "openai"⟩ rfl
  have h0 : (handleWsMessage c4msg c4env).ops =
      [StoreOp.create c7okRec, StoreOp.update "id1" c7okUpd] := rfl
  have h1 := h0.symm.trans hops
  injection h1 with ha hb
  injection hb with hc hd
  injection hc with he hf
  have h2 : u = c7okUpd := hf.symm
  refine ⟨h0, h2 ▸ hst, h2 ▸ hdur () rfl⟩

/-- C8: deleting an id absent from the store answers 404 with
`{error: "Automation not found"}` — not 500 — and leaves the store
unchanged. -/
theorem c8_delete_missing (rows : List (String × AutomationRec)) (i : String)
    (h : lookupRow rows i = none) :
    (deleteAutomationRoute rows i).1.status = 404 ∧
    (deleteAutomationRoute rows i).1.body =
      Jx.jobj [("error", Jx.jstr "Automation not found")] ∧
    (deleteAutomationRoute rows i).2 = rows := by
  have hfilter : rows.filter (fun kv => kv.1 != i) = rows := by
    induction rows with
    | nil => rfl
    | cons kv rest ih =>
      simp only [lookupRow] at h
      by_cases hk : kv.1 = i
      · rw [if_pos] at h
        · exact absurd h (by simp)
        · exact hk
      · rw [if_neg hk] at h
        have hb : (kv.1 != i) = true := by simpa [bne_iff_ne] using hk
        simp [List.filter, hb, ih h]
  constructor
  · simp [deleteAutomationRoute, memDeleteAutomation, h]
  constructor
  · simp [deleteAutomationRoute, memDeleteAutomation, h]
  · simp [deleteAutomationRoute, memDeleteAutomation, h, hfilter]

/-- A stored automation row. -/
def c8row : AutomationRec := ⟨"a1", "go", "success", "openai", none, none, none, none⟩

/-- C8 witness: deleting a missing id 404s and leaves the one-row store
intact. -/
theorem c8_delete_missing_witness :
    lookupRow [("a1", c8row)] "zzz" = none ∧
    (deleteAutomationRoute [("a1", c8row)] "zzz").1.status = 404 ∧
    (deleteAutomationRoute [("a1", c8row)] "zzz").2 = [("a1", c8row)] :=
  ⟨rfl, (c8_delete_missing [("a1", c8row)] "zzz" rfl).1,
   (c8_delete_missing [("a1", c8row)] "zzz" rfl).2.2⟩

/-- C9: `execute` never rejects — `executeRun` is total over every prompt and
every SDK outcome — and its result always carries nonempty logs and the
formatted (nonempty) duration, with `success = false` and `error` holding
the failure message exactly when some step (the initialization guard, the
navigation, or an act call) failed. -/
theorem c9_execute_total (env : ExecEnv) (priorLogs : List LogEntry) (prompt : String) :
    (executeRun env priorLogs prompt).1.logs ≠ [] ∧
    (executeRun env priorLogs prompt).1.duration = fmtDuration env.elapsedMs ∧
    (executeRun env priorLogs prompt).1.duration ≠ "" ∧
    (executeRun env priorLogs prompt).1.error = firstFailure env prompt ∧
    (executeRun env priorLogs prompt).1.success = (firstFailure env prompt).isNone := by
  have core :
      (executeRun env priorLogs prompt).1.logs ≠ [] ∧
      (executeRun env priorLogs prompt).1.duration = fmtDuration env.elapsedMs ∧
      (executeRun env priorLogs prompt).1.error = firstFailure env prompt ∧
      (executeRun env priorLogs prompt).1.success = (firstFailure env prompt).isNone := by
    simp only [executeRun, firstFailure]
    split
    · refine ⟨by simp [execFailResult], rfl, rfl, rfl⟩
    · cases hurl : extractUrl prompt with
      | some url =>
        cases hgoto : env.gotoOutcome with
        | error e => refine ⟨by simp [execFailResult], rfl, rfl, rfl⟩
        | ok u => exact executeSteps_spec env prompt _ _
      | none => exact executeSteps_spec env prompt _ _
  refine ⟨core.1, core.2.1, ?_, core.2.2.1, core.2.2.2⟩
  rw [core.2.1]
  exact fmtDuration_ne_empty env.elapsedMs

/-- C10: every structured-action payload — whether normalized from a direct
parse, from regex-extracted JSON, or the safe default — has a non-empty
`elementId` string (its `arguments` field has the list type by
construction), with `"0-1"` when no usable id is present. -/
theorem c10_elementId_invariant :
    (∀ parsed data now mn,
      (normalizeActionObject parsed data now mn).elementId ≠ "") ∧
    (∀ content data now mn,
      (handleStructuredResponse content data now mn).elementId ≠ "") ∧
    (∀ data now mn, (normalizeActionObject (Jx.jobj []) data now mn).elementId = "0-1") := by
  have hElem : ∀ r, elementIdOf r ≠ "" := by
    intro r
    match r with
    | none => simp [elementIdOf]
    | some Jx.jnull => simp [elementIdOf]
    | some (Jx.jbool b) =>
      simp only [elementIdOf]
      split <;> simp_all
    | some (Jx.jnum l) =>
      simp only [elementIdOf]
      split <;> simp_all
    | some (Jx.jstr s) =>
      simp only [elementIdOf]
      split <;> simp_all
    | some (Jx.jarr xs) =>
      simp only [elementIdOf]
      split <;> simp_all
    | some (Jx.jobj fs) =>
      simp only [elementIdOf]
      split <;> simp_all
  have hNorm : ∀ parsed data now mn,
      (normalizeActionObject parsed data now mn).elementId ≠ "" := by
    intro parsed data now mn
    simpa [normalizeActionObject] using hElem (rawIdOf parsed)
  refine ⟨hNorm, ?_, ?_⟩
  · intro content data now mn
    simp only [handleStructuredResponse]
    split
    · split
      · exact hNorm _ _ _ _
      · split
        · exact hNorm _ _ _ _
        · simp [defaultActionPayload]
    · split
      · exact hNorm _ _ _ _
      · simp [defaultActionPayload]
  · intro data now mn
    rfl
